import Mathlib

/-!
Verification of the batching and sequence-alignment subsystem of a
question-answering pipeline (src/model/batcher.py and
src/model/modules/masked.py).

The embedding models integer tensors as nested `List Int` / `List Nat`
values (dtype distinctions of the original tensors are erased), the tensor
placement as a numeric device tag, and Python exceptions as an explicit
error type threaded through `Except`.
-/

namespace SquadModels

/-- A tensor value: the numeric payload together with the compute device it
lives on (`0` models the CPU, where freshly constructed tensors start). -/
structure Tens (α : Type) where
  data : α
  device : Nat
  deriving DecidableEq, Repr

/-- Model of `Tensor.to(device)`: same payload, relocated to `device`. -/
def Tens.to {α : Type} (x : Tens α) (device : Nat) : Tens α :=
  { data := x.data, device := device }

/-- Failures batch construction can signal.  `padSequenceEmpty` models the
exception `torch.nn.utils.rnn.pad_sequence` raises on an empty sequence
list (it reads `sequences[0]` first); `maxOfEmpty` models the `ValueError`
of the Python builtin `max` on an empty generator.  `emptyBatchError` is modelled
from the spec: section 7 names an `EmptyBatchError`, but src/model/batcher.py
defines and raises no such error. -/
inductive CollateError where
  | padSequenceEmpty : CollateError
  | maxOfEmpty : CollateError
  | emptyBatchError : CollateError
  deriving DecidableEq, Repr

instance exceptDecEq {ε α : Type} [DecidableEq ε] [DecidableEq α] :
    DecidableEq (Except ε α) := fun a b =>
  match a, b with
  | Except.error e, Except.error f =>
    if h : e = f then Decidable.isTrue (congrArg Except.error h)
    else Decidable.isFalse (fun hc => h (Except.error.inj hc))
  | Except.error _, Except.ok _ => Decidable.isFalse (fun hc => Except.noConfusion hc)
  | Except.ok _, Except.error _ => Decidable.isFalse (fun hc => Except.noConfusion hc)
  | Except.ok x, Except.ok y =>
    if h : x = y then Decidable.isTrue (congrArg Except.ok h)
    else Decidable.isFalse (fun hc => h (Except.ok.inj hc))

/-- Pair order used to model `torch.sort(descending=True)` on a vector of
lengths: pairs are (original position, length); larger lengths first. -/
def descPairLE (a b : Nat × Nat) : Prop :=
  b.2 < a.2 ∨ (a.2 = b.2 ∧ a.1 ≤ b.1)

instance : DecidableRel descPairLE := fun a b =>
  inferInstanceAs (Decidable (b.2 < a.2 ∨ (a.2 = b.2 ∧ a.1 ≤ b.1)))

/-- Pair order used to model the ascending `torch.sort()` call that inverts
the length permutation: smaller values first. -/
def ascPairLE (a b : Nat × Nat) : Prop :=
  a.2 < b.2 ∨ (a.2 = b.2 ∧ a.1 ≤ b.1)

instance : DecidableRel ascPairLE := fun a b =>
  inferInstanceAs (Decidable (a.2 < b.2 ∨ (a.2 = b.2 ∧ a.1 ≤ b.1)))

/-- The (position, value) pairs a sort-with-indices call keeps track of. -/
def idxPairs (l : List Nat) : List (Nat × Nat) :=
  (List.range l.length).map (fun i => (i, l.getD i 0))

/-- Index output of sorting the values of `l` by the pair order `r`. -/
def argsortBy (r : Nat × Nat → Nat × Nat → Prop) [DecidableRel r] (l : List Nat) : List Nat :=
  (List.insertionSort r (idxPairs l)).map Prod.fst

/-- Indices `0..l.length-1` rearranged so the values of `l` they point at are
descending: the index output of `lengths.sort(0, descending=True)`. -/
def argsortDesc (l : List Nat) : List Nat :=
  argsortBy descPairLE l

/-- Indices rearranged so the pointed-at values are ascending: the index
output of the plain `length_idxs.sort()` call. -/
def argsortAsc (l : List Nat) : List Nat :=
  argsortBy ascPairLE l

/-- Zero-pad one row to width `L` (`pad_sequence` row semantics, pad 0). -/
def padTo (L : Nat) (s : List Int) : List Int :=
  s ++ List.replicate (L - s.length) 0

/-- The truncation step of `pad_and_sort` (batcher.py lines 233-234):
`seq = [el[:max_sequence_size] for el in seq]` when the cap is positive. -/
def truncSeqs (seq : List (List Int)) (maxSequenceSize : Nat) : List (List Int) :=
  if maxSequenceSize > 0 then seq.map (List.take maxSequenceSize) else seq

/-- Model of `torch.nn.utils.rnn.pad_sequence(seq, batch_first=True)`: stacks the
rows, each zero-padded to the longest row; raises on an empty list. -/
def padSequence (seqs : List (List Int)) : Except CollateError (List (List Int)) :=
  if seqs.isEmpty then Except.error CollateError.padSequenceEmpty
  else Except.ok (seqs.map (padTo ((seqs.map List.length).foldl Nat.max 0)))

/-- Embedding of `batcher.pad_and_sort` (batcher.py lines 213-240).  Returns
(padded batch in length-sorted order, original-to-sorted index map,
sorted-to-original index map, descending lengths).  The single-sequence
fast path (line 227) returns before the truncation step runs. -/
def pad_and_sort (seq : List (List Int)) (maxSequenceSize : Nat) :
    Except CollateError (List (List Int) × List Nat × List Nat × List Nat) :=
  if seq.length = 1 then
    Except.ok ([seq.headD []], [0], [0], [(seq.headD []).length])
  else
    let seq2 := truncSeqs seq maxSequenceSize
    let lengths := seq2.map List.length
    let length_idxs := argsortDesc lengths
    let lengths_sorted := length_idxs.map (fun i => lengths.getD i 0)
    let sorted := length_idxs.map (fun i => seq2.getD i [])
    (padSequence sorted).map (fun batch =>
      (batch, argsortAsc length_idxs, length_idxs, lengths_sorted))

/-- Integer-array indexing along dimension 0: `rows[idxs]`. -/
def tensorIndex (rows : List (List Int)) (idxs : List Nat) : List (List Int) :=
  idxs.map (fun i => rows.getD i [])

/-- Embedding of `masked.mask_sequence`: `(input_batch != mask_index)` as a 0/1 array of
the same shape (batcher passes the default sentinel 0). -/
def mask_sequence (input_batch : List (List Int)) (mask_index : Int) : List (List Int) :=
  input_batch.map (fun row => row.map (fun v => if v = mask_index then 0 else 1))

/-- numpy slice assignment `row[0:word.length] = word` on a grid row. -/
def sliceAssign (row word : List Int) : List Int :=
  word ++ row.drop word.length

/-- Plane of one sample in of the character grid: the inner loop of
`collate_batch` writing `grid[b, w, 0:word.size] = word` for each word
until the cap (if positive) is reached; untouched cells stay zero. -/
def charGridRow (cap maxLen maxWordLen : Nat) (chars : List (List Int)) : List (List Int) :=
  (List.range maxLen).map (fun w =>
    if (cap = 0 ∨ w < cap) ∧ w < chars.length then
      sliceAssign (List.replicate maxWordLen 0) (chars.getD w [])
    else List.replicate maxWordLen 0)

/-- The full character grid `np.zeros((batch, maxLen, maxWordLen))` after
the double write loop of `collate_batch`. -/
def buildCharGrid (charsList : List (List (List Int))) (cap maxLen maxWordLen : Nat) :
    List (List (List Int)) :=
  charsList.map (charGridRow cap maxLen maxWordLen)

/-- Model of `max(word.size for word in chars)`: Python `max` raises on an empty
generator, otherwise yields the largest word length of the sample. -/
def sampleMaxWordLen (chars : List (List Int)) : Except CollateError Nat :=
  if chars.isEmpty then Except.error CollateError.maxOfEmpty
  else Except.ok ((chars.map List.length).foldl Nat.max 0)

/-- The running `max_word_len = max(max_word_len, max(...))` accumulation of
the sample loop in `collate_batch`, over the whole batch. -/
def batchMaxWordLen : List (List (List Int)) → Except CollateError Nat
  | [] => Except.ok 0
  | chars :: rest => do
    let m ← sampleMaxWordLen chars
    let r ← batchMaxWordLen rest
    Except.ok (Nat.max m r)

/-- Embedding of `qa.EncodedSample`: one encoded question+context+answer record.  Word
ids are integer sequences; char ids are one inner sequence per word; the
span vectors are 0/1 indicators over the context positions. -/
structure EncodedSample where
  question_id : String
  question_words : List Int
  question_chars : List (List Int)
  context_words : List Int
  context_chars : List (List Int)
  span_starts : List Int
  span_ends : List Int
  deriving DecidableEq, Repr, Inhabited

/-- Embedding of `batcher.QABatch`: the assembled batch.  Tensor fields carry a device
tag; `question_ids` is a plain list. -/
structure QABatch where
  question_ids : List String
  question_words : Tens (List (List Int))
  question_chars : Tens (List (List (List Int)))
  question_lens : Tens (List Nat)
  question_len_idxs : Tens (List Nat)
  question_orig_idxs : Tens (List Nat)
  question_mask : Tens (List (List Int))
  context_words : Tens (List (List Int))
  context_chars : Tens (List (List (List Int)))
  context_lens : Tens (List Nat)
  context_len_idxs : Tens (List Nat)
  context_orig_idxs : Tens (List Nat)
  context_mask : Tens (List (List Int))
  answer_span_starts : Tens (List (List Int))
  answer_span_ends : Tens (List (List Int))
  deriving DecidableEq, Repr

/-- Embedding of `QABatch.to`: moves every tensor field to `device` (batcher.py lines
76-97); `question_ids` is not reassigned. -/
def QABatch.to (b : QABatch) (device : Nat) : QABatch :=
  { question_ids := b.question_ids
    question_words := b.question_words.to device
    question_chars := b.question_chars.to device
    question_lens := b.question_lens.to device
    question_len_idxs := b.question_len_idxs.to device
    question_orig_idxs := b.question_orig_idxs.to device
    question_mask := b.question_mask.to device
    context_words := b.context_words.to device
    context_chars := b.context_chars.to device
    context_lens := b.context_lens.to device
    context_len_idxs := b.context_len_idxs.to device
    context_orig_idxs := b.context_orig_idxs.to device
    context_mask := b.context_mask.to device
    answer_span_starts := b.answer_span_starts.to device
    answer_span_ends := b.answer_span_ends.to device }

/-- Embedding of `QABatch.__len__`: the length of the question-identifier list. -/
def QABatch.size (b : QABatch) : Nat :=
  b.question_ids.length

/-- Embedding of `batcher.collate_batch` (batcher.py lines 115-210).  The per-sample
collection loop becomes the `map` projections; the two char-grid loops
become `buildCharGrid`; span vectors are padded with the context cap and
re-expanded with the context permutation. -/
def collate_batch (batch : List EncodedSample) (maxQuestionSize maxContextSize : Nat) :
    Except CollateError QABatch := do
  let question_words_list := batch.map (fun s => s.question_words)
  let question_ids := batch.map (fun s => s.question_id)
  let context_words_list := batch.map (fun s => s.context_words)
  let answer_span_starts_list := batch.map (fun s => s.span_starts)
  let answer_span_ends_list := batch.map (fun s => s.span_ends)
  let question_chars_list := batch.map (fun s => s.question_chars)
  let context_chars_list := batch.map (fun s => s.context_chars)
  let max_question_word_len ← batchMaxWordLen question_chars_list
  let max_ctx_word_len ← batchMaxWordLen context_chars_list
  let (question_words_sorted, question_orig_idxs, question_len_idxs, question_lens) ←
    pad_and_sort question_words_list maxQuestionSize
  let question_words := tensorIndex question_words_sorted question_orig_idxs
  let question_mask := mask_sequence question_words 0
  let max_question_len := question_lens.getD 0 0
  let question_chars :=
    buildCharGrid question_chars_list maxQuestionSize max_question_len max_question_word_len
  let (context_words_sorted, context_orig_idxs, context_len_idxs, context_lens) ←
    pad_and_sort context_words_list maxContextSize
  let context_words := tensorIndex context_words_sorted context_orig_idxs
  let context_mask := mask_sequence context_words 0
  let max_context_len := context_lens.getD 0 0
  let context_chars :=
    buildCharGrid context_chars_list maxContextSize max_context_len max_ctx_word_len
  let (answer_span_starts_sorted, _, _, _) ←
    pad_and_sort answer_span_starts_list maxContextSize
  let answer_span_starts := tensorIndex answer_span_starts_sorted context_orig_idxs
  let (answer_span_ends_sorted, _, _, _) ←
    pad_and_sort answer_span_ends_list maxContextSize
  let answer_span_ends := tensorIndex answer_span_ends_sorted context_orig_idxs
  Except.ok
    { question_ids := question_ids
      question_words := { data := question_words, device := 0 }
      question_chars := { data := question_chars, device := 0 }
      question_lens := { data := question_lens, device := 0 }
      question_len_idxs := { data := question_len_idxs, device := 0 }
      question_orig_idxs := { data := question_orig_idxs, device := 0 }
      question_mask := { data := question_mask, device := 0 }
      context_words := { data := context_words, device := 0 }
      context_chars := { data := context_chars, device := 0 }
      context_lens := { data := context_lens, device := 0 }
      context_len_idxs := { data := context_len_idxs, device := 0 }
      context_orig_idxs := { data := context_orig_idxs, device := 0 }
      context_mask := { data := context_mask, device := 0 }
      answer_span_starts := { data := answer_span_starts, device := 0 }
      answer_span_ends := { data := answer_span_ends, device := 0 } }

/-- The original-order dense array the spec compares against: every (capped)
input sequence zero-padded to the common width, rows in input order. -/
def originalOrderPadded (seq : List (List Int)) (maxSequenceSize : Nat) : List (List Int) :=
  let seq2 := truncSeqs seq maxSequenceSize
  seq2.map (padTo ((seq2.map List.length).foldl Nat.max 0))

/-- What claim C6 asserts of the character grid of one field: shape
`(N, maxLen, m)` where `m` bounds and is attained by the word lengths of
the whole batch pre-cap; each written cell starts with the char ids of its word
and is zero afterwards; every other cell is entirely zero. -/
def charGridMatches (charsList : List (List (List Int))) (cap maxLen m : Nat)
    (grid : List (List (List Int))) : Prop :=
  grid.length = charsList.length ∧
  (∀ c ∈ charsList, ∀ w ∈ c, w.length ≤ m) ∧
  (∃ c ∈ charsList, ∃ w ∈ c, w.length = m) ∧
  (∀ i, i < charsList.length →
    (grid.getD i []).length = maxLen ∧
    (∀ w, w < maxLen → ((grid.getD i []).getD w []).length = m) ∧
    (∀ w, w < (charsList.getD i []).length → (cap = 0 ∨ w < cap) →
      ((grid.getD i []).getD w []).take ((charsList.getD i []).getD w []).length
          = (charsList.getD i []).getD w [] ∧
      (∀ j, ((charsList.getD i []).getD w []).length ≤ j →
        ((grid.getD i []).getD w []).getD j 0 = 0)) ∧
    (∀ w, w < maxLen → ¬((cap = 0 ∨ w < cap) ∧ w < (charsList.getD i []).length) →
      (grid.getD i []).getD w [] = List.replicate m 0))

instance : IsTotal (Nat × Nat) descPairLE :=
  ⟨fun a b => by unfold descPairLE; omega⟩

instance : IsTrans (Nat × Nat) descPairLE :=
  ⟨fun a b c h1 h2 => by unfold descPairLE at h1 h2 ⊢; omega⟩

instance : IsTotal (Nat × Nat) ascPairLE :=
  ⟨fun a b => by unfold ascPairLE; omega⟩

instance : IsTrans (Nat × Nat) ascPairLE :=
  ⟨fun a b c h1 h2 => by unfold ascPairLE at h1 h2 ⊢; omega⟩

theorem exceptOkBind {ε α β : Type} (a : α) (f : α → Except ε β) :
    (Except.ok a : Except ε α) >>= f = f a := rfl

theorem exceptErrorBind {ε α β : Type} (e : ε) (f : α → Except ε β) :
    (Except.error e : Except ε α) >>= f = Except.error e := rfl

theorem map_getD_range (l : List Nat) :
    (List.range l.length).map (fun i => l.getD i 0) = l := by
  apply List.ext_getElem
  · simp
  · intro n h1 h2
    simp [List.getD, List.getElem?_eq_getElem h2]

theorem idxPairs_length (l : List Nat) : (idxPairs l).length = l.length := by
  simp [idxPairs]

theorem idxPairs_map_fst (l : List Nat) :
    (idxPairs l).map Prod.fst = List.range l.length := by
  simp [idxPairs, List.map_map, Function.comp_def]

theorem idxPairs_map_snd (l : List Nat) : (idxPairs l).map Prod.snd = l := by
  simp only [idxPairs, List.map_map]
  exact map_getD_range l

theorem idxPairs_mem {l : List Nat} {p : Nat × Nat} (hp : p ∈ idxPairs l) :
    p.1 < l.length ∧ p.2 = l.getD p.1 0 := by
  simp only [idxPairs, List.mem_map, List.mem_range] at hp
  obtain ⟨i, hi, rfl⟩ := hp
  exact ⟨hi, rfl⟩

theorem argsortBy_perm (r : Nat × Nat → Nat × Nat → Prop) [DecidableRel r] (l : List Nat) :
    (argsortBy r l).Perm (List.range l.length) := by
  have h := (List.perm_insertionSort r (idxPairs l)).map Prod.fst
  rwa [idxPairs_map_fst] at h

theorem argsortBy_length (r : Nat × Nat → Nat × Nat → Prop) [DecidableRel r] (l : List Nat) :
    (argsortBy r l).length = l.length :=
  ((argsortBy_perm r l).length_eq).trans (List.length_range _)

theorem argsortBy_mem {r : Nat × Nat → Nat × Nat → Prop} [DecidableRel r] {l : List Nat}
    {i : Nat} (h : i ∈ argsortBy r l) : i < l.length :=
  List.mem_range.mp ((argsortBy_perm r l).subset h)

theorem argsortBy_nodup (r : Nat × Nat → Nat × Nat → Prop) [DecidableRel r] (l : List Nat) :
    (argsortBy r l).Nodup :=
  ((argsortBy_perm r l).symm).nodup (List.nodup_range _)

theorem argsortBy_map_getD (r : Nat × Nat → Nat × Nat → Prop) [DecidableRel r] (l : List Nat) :
    (argsortBy r l).map (fun i => l.getD i 0)
      = (List.insertionSort r (idxPairs l)).map Prod.snd := by
  unfold argsortBy
  rw [List.map_map]
  apply List.map_congr_left
  intro p hp
  have hp2 : p ∈ idxPairs l := (List.perm_insertionSort r (idxPairs l)).subset hp
  exact ((idxPairs_mem hp2).2).symm

theorem argsortBy_getD_perm (r : Nat × Nat → Nat × Nat → Prop) [DecidableRel r] (l : List Nat) :
    ((argsortBy r l).map (fun i => l.getD i 0)).Perm l := by
  rw [argsortBy_map_getD]
  have h := (List.perm_insertionSort r (idxPairs l)).map Prod.snd
  rwa [idxPairs_map_snd] at h

theorem argsortBy_values_pairwise {r : Nat × Nat → Nat × Nat → Prop} [DecidableRel r]
    [IsTotal (Nat × Nat) r] [IsTrans (Nat × Nat) r] {s : Nat → Nat → Prop}
    (hrs : ∀ a b : Nat × Nat, r a b → s a.2 b.2) (l : List Nat) :
    ((argsortBy r l).map (fun i => l.getD i 0)).Pairwise s := by
  rw [argsortBy_map_getD]
  exact List.Pairwise.map Prod.snd hrs (List.sorted_insertionSort r (idxPairs l))

theorem getD_map_of_lt {α β : Type} (f : α → β) (l : List α) (d : β) (dl : α) (j : Nat)
    (hj : j < l.length) : (l.map f).getD j d = f (l.getD j dl) := by
  rw [List.getD_eq_getElem _ _ hj, List.getD_eq_getElem _ _ (by simpa using hj)]
  simp

theorem getD_range (n j : Nat) (hj : j < n) : (List.range n).getD j 0 = j := by
  rw [List.getD_eq_getElem _ _ (by simpa using hj)]
  simp

/-- Inverting a permutation of `0..N-1` with an ascending argsort yields its
two-sided inverse: the content of `_, orig_idxs = length_idxs.sort()`. -/
theorem argsortAsc_inverse (xs : List Nat) (hperm : xs.Perm (List.range xs.length)) :
    (argsortAsc xs).Perm (List.range xs.length) ∧
    (∀ j, j < xs.length → xs.getD ((argsortAsc xs).getD j 0) 0 = j) ∧
    (∀ j, j < xs.length → (argsortAsc xs).getD (xs.getD j 0) 0 = j) := by
  have hqperm : (argsortAsc xs).Perm (List.range xs.length) := argsortBy_perm _ _
  have hqlen : (argsortAsc xs).length = xs.length := argsortBy_length _ _
  have hvals : ((argsortAsc xs).map (fun i => xs.getD i 0)) = List.range xs.length := by
    refine List.eq_of_perm_of_sorted (r := fun a b : Nat => a ≤ b)
      ((argsortBy_getD_perm ascPairLE xs).trans hperm) ?_ (List.sorted_le_range _)
    exact argsortBy_values_pairwise
      (fun a b h => by unfold ascPairLE at h; omega) xs
  have hright : ∀ j, j < xs.length → xs.getD ((argsortAsc xs).getD j 0) 0 = j := by
    intro j hj
    have h1 : ((argsortAsc xs).map (fun i => xs.getD i 0)).getD j 0 = j := by
      rw [hvals]
      exact getD_range _ _ hj
    rwa [getD_map_of_lt (fun i => xs.getD i 0) (argsortAsc xs) 0 0 j (by omega)] at h1
  refine ⟨hqperm, hright, ?_⟩
  intro j hj
  have hxj : xs.getD j 0 < xs.length := by
    have hmem : xs.getD j 0 ∈ xs := by
      rw [List.getD_eq_getElem _ _ hj]
      exact List.getElem_mem hj
    exact List.mem_range.mp (hperm.subset hmem)
  have hq : (argsortAsc xs).getD (xs.getD j 0) 0 < xs.length := by
    have hmem : (argsortAsc xs).getD (xs.getD j 0) 0 ∈ argsortAsc xs := by
      rw [List.getD_eq_getElem _ _ (by omega)]
      exact List.getElem_mem (by omega)
    exact argsortBy_mem hmem
  have h1 := hright (xs.getD j 0) hxj
  have hnodup : xs.Nodup := hperm.symm.nodup (List.nodup_range _)
  have e1 : xs.getD ((argsortAsc xs).getD (xs.getD j 0) 0) 0
      = xs[(argsortAsc xs).getD (xs.getD j 0) 0] := List.getD_eq_getElem _ _ hq
  have e2 : xs.getD j 0 = xs[j] := List.getD_eq_getElem _ _ hj
  exact hnodup.getElem_inj_iff.mp ((e1.symm.trans h1).trans e2)

theorem replicate_getD_zero (m k : Nat) : (List.replicate m (0 : Int)).getD k 0 = 0 := by
  by_cases h : k < m
  · rw [List.getD_eq_getElem _ _ (by simpa using h)]
    exact List.getElem_replicate _ _
  · exact List.getD_eq_default _ _ (by simpa using Nat.le_of_not_lt h)

theorem padTo_getD (L : Nat) (s : List Int) (k : Nat) :
    (padTo L s).getD k 0 = s.getD k 0 := by
  unfold padTo
  by_cases h : k < s.length
  · exact List.getD_append _ _ _ _ h
  · rw [List.getD_append_right _ _ _ _ (Nat.le_of_not_lt h),
      List.getD_eq_default _ _ (Nat.le_of_not_lt h)]
    exact replicate_getD_zero _ _

theorem padTo_length (L : Nat) (s : List Int) :
    (padTo L s).length = s.length + (L - s.length) := by
  simp [padTo]

theorem padTo_length_of_le {L : Nat} {s : List Int} (h : s.length ≤ L) :
    (padTo L s).length = L := by
  rw [padTo_length]; omega

theorem mem_padTo {L : Nat} {s : List Int} {x : Int} (hx : x ∈ padTo L s) :
    x ∈ s ∨ x = 0 := by
  unfold padTo at hx
  rcases List.mem_append.mp hx with h | h
  · exact Or.inl h
  · exact Or.inr (List.eq_of_mem_replicate h)

theorem take_getD (c : Nat) (s : List Int) (k : Nat) :
    (List.take c s).getD k 0 = if k < c then s.getD k 0 else 0 := by
  by_cases hk : k < c
  · simp only [hk, if_true]
    by_cases hks : k < s.length
    · rw [List.getD_eq_getElem _ _ (by simp; omega), List.getD_eq_getElem _ _ hks]
      exact List.getElem_take _
    · rw [List.getD_eq_default _ _ (by simp; omega),
        List.getD_eq_default _ _ (by omega)]
  · simp only [hk, if_false]
    exact List.getD_eq_default _ _ (by simp; omega)

theorem le_foldl_max (l : List Nat) (a : Nat) : a ≤ l.foldl Nat.max a := by
  induction l generalizing a with
  | nil => exact Nat.le_refl _
  | cons y ys ih =>
    exact Nat.le_trans (Nat.le_max_left a y) (ih (Nat.max a y))

theorem foldl_max_le_of_mem {l : List Nat} {x : Nat} (hx : x ∈ l) (a : Nat) :
    x ≤ l.foldl Nat.max a := by
  induction l generalizing a with
  | nil => cases hx
  | cons y ys ih =>
    rcases List.mem_cons.mp hx with rfl | h
    · exact Nat.le_trans (Nat.le_max_right a x) (le_foldl_max ys (Nat.max a x))
    · exact ih h (Nat.max a y)

theorem foldl_max_mem (l : List Nat) (a : Nat) :
    l.foldl Nat.max a = a ∨ l.foldl Nat.max a ∈ l := by
  induction l generalizing a with
  | nil => exact Or.inl rfl
  | cons y ys ih =>
    rcases ih (Nat.max a y) with h | h
    · rcases Nat.le_total y a with h2 | h2
      · left
        simp only [List.foldl_cons]
        rw [h]
        exact Nat.max_eq_left h2
      · refine Or.inr (List.mem_cons.mpr (Or.inl ?_))
        simp only [List.foldl_cons]
        rw [h]
        exact Nat.max_eq_right h2
    · exact Or.inr (List.mem_cons.mpr (Or.inr h))

theorem length_getD_eq (seq2 : List (List Int)) (i : Nat) :
    (seq2.getD i []).length = (seq2.map List.length).getD i 0 := by
  by_cases h : i < seq2.length
  · rw [List.getD_eq_getElem _ _ h, List.getD_eq_getElem _ _ (by simpa using h)]
    simp
  · rw [List.getD_eq_default _ _ (by omega),
      List.getD_eq_default _ _ (by simpa using Nat.le_of_not_lt h)]
    rfl

theorem truncSeqs_length (seq : List (List Int)) (cap : Nat) :
    (truncSeqs seq cap).length = seq.length := by
  unfold truncSeqs
  by_cases h : cap > 0 <;> simp [h]

theorem tensorIndex_length (rows : List (List Int)) (idxs : List Nat) :
    (tensorIndex rows idxs).length = idxs.length := by
  simp [tensorIndex]

theorem tensorIndex_getD (rows : List (List Int)) (idxs : List Nat) (j : Nat)
    (hj : j < idxs.length) :
    (tensorIndex rows idxs).getD j [] = rows.getD (idxs.getD j 0) [] := by
  unfold tensorIndex
  rw [getD_map_of_lt _ _ _ 0 j hj]

/-- The sorted-order values the general path maps over its permutation are a
permutation of the post-truncation lengths. -/
theorem sortedLengths_perm (lengths : List Nat) :
    ((argsortDesc lengths).map (fun i => lengths.getD i 0)).Perm lengths :=
  argsortBy_getD_perm descPairLE lengths

/-- With at least two sequences `pad_and_sort` takes the general path; its
outputs have this closed form: the padded batch is the original-order dense
array re-indexed by the descending length argsort, the two index maps are
that argsort and its ascending-argsort inverse, and the lengths are the
post-truncation lengths read through the argsort. -/
theorem pad_and_sort_general (seq : List (List Int)) (cap : Nat) (h2 : 2 ≤ seq.length) :
    pad_and_sort seq cap =
      Except.ok
        (tensorIndex (originalOrderPadded seq cap)
            (argsortDesc ((truncSeqs seq cap).map List.length)),
         argsortAsc (argsortDesc ((truncSeqs seq cap).map List.length)),
         argsortDesc ((truncSeqs seq cap).map List.length),
         (argsortDesc ((truncSeqs seq cap).map List.length)).map
           (fun i => ((truncSeqs seq cap).map List.length).getD i 0)) := by
  have hlen1 : ¬seq.length = 1 := by omega
  have hplen : (argsortDesc ((truncSeqs seq cap).map List.length)).length = seq.length := by
    unfold argsortDesc
    rw [argsortBy_length, List.length_map, truncSeqs_length]
  have hsortedne :
      ((argsortDesc ((truncSeqs seq cap).map List.length)).map
        (fun i => (truncSeqs seq cap).getD i [])).isEmpty = false := by
    rw [List.isEmpty_eq_false]
    exact List.length_pos.mp (by rw [List.length_map, hplen]; omega)
  unfold pad_and_sort
  rw [if_neg hlen1]
  show (padSequence ((argsortDesc ((truncSeqs seq cap).map List.length)).map
      (fun i => (truncSeqs seq cap).getD i []))).map _ = _
  unfold padSequence
  rw [hsortedne]
  simp only [Bool.false_eq_true, if_false, Except.map]
  refine congrArg Except.ok ?_
  refine Prod.ext ?_ rfl
  -- the padded batch equals the re-indexed original-order array
  have hLeq :
      ((((argsortDesc ((truncSeqs seq cap).map List.length)).map
          (fun i => (truncSeqs seq cap).getD i [])).map List.length).foldl Nat.max 0)
        = (((truncSeqs seq cap).map List.length).foldl Nat.max 0) := by
    rw [List.map_map]
    have hmapeq :
        ((argsortDesc ((truncSeqs seq cap).map List.length)).map
          (List.length ∘ fun i => (truncSeqs seq cap).getD i []))
          = (argsortDesc ((truncSeqs seq cap).map List.length)).map
              (fun i => ((truncSeqs seq cap).map List.length).getD i 0) := by
      apply List.map_congr_left
      intro i _
      exact length_getD_eq _ _
    rw [hmapeq]
    exact (sortedLengths_perm ((truncSeqs seq cap).map List.length)).foldl_eq 0
  rw [List.map_map]
  unfold tensorIndex originalOrderPadded
  apply List.map_congr_left
  intro i hi
  have hi2 : i < (truncSeqs seq cap).length := by
    have := argsortBy_mem (r := descPairLE) hi
    rwa [List.length_map] at this
  simp only [Function.comp]
  rw [getD_map_of_lt _ _ _ [] i hi2, hLeq]

/-- The single-sequence fast path of `pad_and_sort` (batcher.py line 227):
the sequence is returned untouched by truncation and padding. -/
theorem pad_and_sort_single (s : List Int) (cap : Nat) :
    pad_and_sort [s] cap = Except.ok ([s], [0], [0], [s.length]) := by
  simp [pad_and_sort]

theorem sampleMax_attained {chars : List (List Int)} (h : chars ≠ []) :
    ∃ w ∈ chars, w.length = (chars.map List.length).foldl Nat.max 0 := by
  rcases foldl_max_mem (chars.map List.length) 0 with h0 | hmem
  · obtain ⟨w, hw⟩ := List.exists_mem_of_ne_nil chars h
    refine ⟨w, hw, ?_⟩
    have hle := foldl_max_le_of_mem (List.mem_map_of_mem List.length hw) 0
    omega
  · obtain ⟨w, hw, hlen⟩ := List.mem_map.mp hmem
    exact ⟨w, hw, hlen⟩

theorem sampleMaxWordLen_ok {chars : List (List Int)} (h : chars ≠ []) :
    sampleMaxWordLen chars = Except.ok ((chars.map List.length).foldl Nat.max 0) := by
  unfold sampleMaxWordLen
  rw [if_neg]
  simp [List.isEmpty_eq_false, h]

/-- When the char list of every sample is nonempty, the running batch max
succeeds, bounds every word of the batch, and is attained by some word. -/
theorem batchMaxWordLen_ok (L : List (List (List Int))) (h : ∀ c ∈ L, c ≠ []) :
    ∃ m, batchMaxWordLen L = Except.ok m ∧
      (∀ c ∈ L, ∀ w ∈ c, w.length ≤ m) ∧
      (L ≠ [] → ∃ c ∈ L, ∃ w ∈ c, w.length = m) := by
  induction L with
  | nil => exact ⟨0, rfl, by simp, by simp⟩
  | cons chars rest ih =>
    have hchars : chars ≠ [] := h chars (List.mem_cons_self chars rest)
    obtain ⟨mr, hmr, hle, hexr⟩ := ih (fun c hc => h c (List.mem_cons_of_mem _ hc))
    have hsm := sampleMaxWordLen_ok hchars
    refine ⟨Nat.max ((chars.map List.length).foldl Nat.max 0) mr, ?_, ?_, ?_⟩
    · simp [batchMaxWordLen, hsm, hmr, exceptOkBind]
    · intro c hc w hw
      rcases List.mem_cons.mp hc with rfl | hc2
      · exact Nat.le_trans
          (foldl_max_le_of_mem (List.mem_map_of_mem List.length hw) 0)
          (Nat.le_max_left _ _)
      · exact Nat.le_trans (hle c hc2 w hw) (Nat.le_max_right _ _)
    · intro _
      obtain ⟨w1, hw1, hl1⟩ := sampleMax_attained hchars
      rcases Nat.le_total mr ((chars.map List.length).foldl Nat.max 0) with hcmp | hcmp
      · exact ⟨chars, List.mem_cons_self chars rest, w1, hw1,
          hl1.trans (Nat.max_eq_left hcmp).symm⟩
      · by_cases hrest : rest = []
        · subst hrest
          have hmr0 : mr = 0 := by
            simp only [batchMaxWordLen, Except.ok.injEq] at hmr
            omega
          refine ⟨chars, List.mem_cons_self chars [], w1, hw1, ?_⟩
          have hle0 : mr ≤ (chars.map List.length).foldl Nat.max 0 := by
            rw [hmr0]
            exact Nat.zero_le _
          exact hl1.trans (Nat.max_eq_left hle0).symm
        · obtain ⟨c, hc, w, hw, hwl⟩ := hexr hrest
          exact ⟨c, List.mem_cons_of_mem _ hc, w, hw,
            hwl.trans (Nat.max_eq_right hcmp).symm⟩

theorem head_ge_of_mem_of_sorted {l : List Nat} (hs : l.Pairwise (fun a b => b ≤ a))
    {x : Nat} (hx : x ∈ l) : x ≤ l.getD 0 0 := by
  cases l with
  | nil => cases hx
  | cons v vs =>
    rcases List.mem_cons.mp hx with rfl | h2
    · exact Nat.le_refl _
    · exact (List.pairwise_cons.mp hs).1 x h2

/-- The descending lengths produced by the general path are non-increasing. -/
theorem sortedLengths_pairwise (lengths : List Nat) :
    ((argsortDesc lengths).map (fun i => lengths.getD i 0)).Pairwise (fun a b => b ≤ a) :=
  argsortBy_values_pairwise (fun a b hab => by unfold descPairLE at hab; omega) lengths

/-- Unfolding of `collate_batch` given the results of its effectful steps. -/
theorem collate_batch_eq (samples : List EncodedSample) (qcap ccap mq mc : Nat)
    (qw : List (List Int)) (qo qp qlens : List Nat)
    (cw : List (List Int)) (co cp clens : List Nat)
    (ssb : List (List Int)) (sso ssp sslens : List Nat)
    (seb : List (List Int)) (seo sep selens : List Nat)
    (hmq : batchMaxWordLen (samples.map (fun s => s.question_chars)) = Except.ok mq)
    (hmc : batchMaxWordLen (samples.map (fun s => s.context_chars)) = Except.ok mc)
    (hq : pad_and_sort (samples.map (fun s => s.question_words)) qcap
        = Except.ok (qw, qo, qp, qlens))
    (hc : pad_and_sort (samples.map (fun s => s.context_words)) ccap
        = Except.ok (cw, co, cp, clens))
    (hss : pad_and_sort (samples.map (fun s => s.span_starts)) ccap
        = Except.ok (ssb, sso, ssp, sslens))
    (hse : pad_and_sort (samples.map (fun s => s.span_ends)) ccap
        = Except.ok (seb, seo, sep, selens)) :
    collate_batch samples qcap ccap = Except.ok
      { question_ids := samples.map (fun s => s.question_id)
        question_words := { data := tensorIndex qw qo, device := 0 }
        question_chars :=
          { data := buildCharGrid (samples.map (fun s => s.question_chars)) qcap
              (qlens.getD 0 0) mq, device := 0 }
        question_lens := { data := qlens, device := 0 }
        question_len_idxs := { data := qp, device := 0 }
        question_orig_idxs := { data := qo, device := 0 }
        question_mask := { data := mask_sequence (tensorIndex qw qo) 0, device := 0 }
        context_words := { data := tensorIndex cw co, device := 0 }
        context_chars :=
          { data := buildCharGrid (samples.map (fun s => s.context_chars)) ccap
              (clens.getD 0 0) mc, device := 0 }
        context_lens := { data := clens, device := 0 }
        context_len_idxs := { data := cp, device := 0 }
        context_orig_idxs := { data := co, device := 0 }
        context_mask := { data := mask_sequence (tensorIndex cw co) 0, device := 0 }
        answer_span_starts := { data := tensorIndex ssb co, device := 0 }
        answer_span_ends := { data := tensorIndex seb co, device := 0 } } := by
  simp only [collate_batch, hmq, hmc, hq, hc, hss, hse, exceptOkBind]

theorem tensorIndex_inv_cancel (rows : List (List Int)) (p q : List Nat)
    (hplen : p.length = rows.length) (hqlen : q.length = rows.length)
    (hqlt : ∀ j, j < rows.length → q.getD j 0 < rows.length)
    (hinv : ∀ j, j < rows.length → p.getD (q.getD j 0) 0 = j) :
    tensorIndex (tensorIndex rows p) q = rows := by
  apply List.ext_getElem
  · rw [tensorIndex_length, hqlen]
  · intro n h1 h2
    have hn : n < q.length := by rwa [hqlen]
    have e1 : (tensorIndex (tensorIndex rows p) q).getD n []
        = (tensorIndex (tensorIndex rows p) q)[n] := List.getD_eq_getElem _ _ h1
    have e2 : rows.getD n [] = rows[n] := List.getD_eq_getElem _ _ h2
    rw [← e1, ← e2, tensorIndex_getD _ _ _ hn,
      tensorIndex_getD _ _ _ (by rw [hplen]; exact hqlt n h2), hinv n h2]

theorem originalOrderPadded_length (seq : List (List Int)) (cap : Nat) :
    (originalOrderPadded seq cap).length = seq.length := by
  unfold originalOrderPadded
  rw [List.length_map, truncSeqs_length]

/-- Auxiliary: the permutation the general path of `pad_and_sort` sorts
with, together with its inverse, satisfies the bookkeeping facts needed by
the claims. -/
theorem pad_and_sort_perm_facts (seq : List (List Int)) (cap : Nat) :
    ((argsortDesc ((truncSeqs seq cap).map List.length)).Perm (List.range seq.length)) ∧
    ((argsortAsc (argsortDesc ((truncSeqs seq cap).map List.length))).Perm
        (List.range seq.length)) ∧
    (∀ j, j < seq.length →
      (argsortDesc ((truncSeqs seq cap).map List.length)).getD
        ((argsortAsc (argsortDesc ((truncSeqs seq cap).map List.length))).getD j 0) 0 = j) ∧
    (∀ j, j < seq.length →
      (argsortAsc (argsortDesc ((truncSeqs seq cap).map List.length))).getD
        ((argsortDesc ((truncSeqs seq cap).map List.length)).getD j 0) 0 = j) := by
  have hlenlen : ((truncSeqs seq cap).map List.length).length = seq.length := by
    rw [List.length_map, truncSeqs_length]
  have hplen : (argsortDesc ((truncSeqs seq cap).map List.length)).length = seq.length := by
    unfold argsortDesc
    rw [argsortBy_length, hlenlen]
  have hpperm : (argsortDesc ((truncSeqs seq cap).map List.length)).Perm
      (List.range seq.length) := by
    have h := argsortBy_perm descPairLE ((truncSeqs seq cap).map List.length)
    rwa [hlenlen] at h
  have hinv := argsortAsc_inverse (argsortDesc ((truncSeqs seq cap).map List.length))
    (by rwa [hplen])
  rw [hplen] at hinv
  exact ⟨hpperm, hinv.1, hinv.2.1, hinv.2.2⟩

/-- Claim C1: for N >= 2 sequences, the two index maps `pad_and_sort`
returns are mutually inverse permutations of 0..N-1; indexing the sorted
batch with the sorted-to-original map yields the original-order dense
array, and indexing that array with the original-to-sorted map yields the
sorted batch back. -/
theorem claim1_pad_and_sort_index_maps (seq : List (List Int)) (cap : Nat)
    (h2 : 2 ≤ seq.length) (batch : List (List Int)) (origIdx lenIdx lens : List Nat)
    (hok : pad_and_sort seq cap = Except.ok (batch, origIdx, lenIdx, lens)) :
    lenIdx.Perm (List.range seq.length) ∧
    origIdx.Perm (List.range seq.length) ∧
    (∀ j, j < seq.length →
      origIdx.getD (lenIdx.getD j 0) 0 = j ∧ lenIdx.getD (origIdx.getD j 0) 0 = j) ∧
    tensorIndex batch origIdx = originalOrderPadded seq cap ∧
    tensorIndex (originalOrderPadded seq cap) lenIdx = batch := by
  rw [pad_and_sort_general seq cap h2] at hok
  simp only [Except.ok.injEq, Prod.mk.injEq] at hok
  obtain ⟨hb, ho, hp, hl⟩ := hok
  subst hb
  subst ho
  subst hp
  subst hl
  obtain ⟨hpperm, hqperm, hright, hleft⟩ := pad_and_sort_perm_facts seq cap
  have horig : (originalOrderPadded seq cap).length = seq.length :=
    originalOrderPadded_length seq cap
  have hplen : (argsortDesc ((truncSeqs seq cap).map List.length)).length = seq.length :=
    hpperm.length_eq.trans (List.length_range _)
  have hqlen : (argsortAsc (argsortDesc ((truncSeqs seq cap).map List.length))).length
      = seq.length := hqperm.length_eq.trans (List.length_range _)
  refine ⟨hpperm, hqperm, fun j hj => ⟨hleft j hj, hright j hj⟩, ?_, rfl⟩
  apply tensorIndex_inv_cancel
  · rwa [horig]
  · rwa [horig]
  · intro j hj
    rw [horig] at hj ⊢
    have hmem : (argsortAsc (argsortDesc ((truncSeqs seq cap).map List.length))).getD j 0
        ∈ argsortAsc (argsortDesc ((truncSeqs seq cap).map List.length)) := by
      rw [List.getD_eq_getElem _ _ (by omega)]
      exact List.getElem_mem _
    have := argsortBy_mem hmem
    rwa [hplen] at this
  · intro j hj
    rw [horig] at hj
    exact hright j hj

/-- Witness for claim C1 at the spec section 8 scenario
`[[1,2],[5,6,7]]` with no cap. -/
theorem claim1_witness :
    ([1, 0] : List Nat).Perm (List.range 2) ∧
    ([1, 0] : List Nat).Perm (List.range 2) ∧
    (∀ j, j < 2 →
      ([1, 0] : List Nat).getD (([1, 0] : List Nat).getD j 0) 0 = j ∧
      ([1, 0] : List Nat).getD (([1, 0] : List Nat).getD j 0) 0 = j) ∧
    tensorIndex [[5, 6, 7], [1, 2, 0]] [1, 0]
      = originalOrderPadded [[1, 2], [5, 6, 7]] 0 ∧
    tensorIndex (originalOrderPadded [[1, 2], [5, 6, 7]] 0) [1, 0]
      = [[5, 6, 7], [1, 2, 0]] :=
  claim1_pad_and_sort_index_maps [[1, 2], [5, 6, 7]] 0 (by decide)
    [[5, 6, 7], [1, 2, 0]] [1, 0] [1, 0] [3, 2] (by decide)

theorem truncSeqs_nil (cap : Nat) : truncSeqs [] cap = [] := by
  unfold truncSeqs
  by_cases h : cap > 0 <;> simp [h]

/-- Claim C3 (code-bug evidence): with cap 2 the single-sequence fast path
of `pad_and_sort` returns `[[1,2,3,4]]` untruncated with length 4, not
`[[1,2]]` with length 2 as its own docstring and the spec state: the
`len(seq) == 1` return on line 227 runs before the truncation on line 234. -/
theorem claim3_single_sequence_cap_ignored :
    pad_and_sort [[1, 2, 3, 4]] 2 = Except.ok ([[1, 2, 3, 4]], [0], [0], [4]) := by
  decide

/-- Claim C5 counterexample: with cap 2 on `[[1,2,3],[4]]` the returned
lengths are `[2,1]`, which is not a permutation of the true input lengths
`[3,1]`. -/
theorem claim5_counterexample :
    pad_and_sort [[1, 2, 3], [4]] 2
      = Except.ok ([[1, 2], [4, 0]], [0, 1], [0, 1], [2, 1]) ∧
    ¬ ([2, 1] : List Nat).Perm (([[1, 2, 3], [4]] : List (List Int)).map List.length) := by
  constructor
  · decide
  · decide

/-- Claim C5 (amended): for N >= 2 sequences the returned length vector is
non-increasing and a permutation of the post-truncation lengths; when the
cap is 0 these are the true input lengths. -/
theorem claim5_lengths_sorted_perm (seq : List (List Int)) (cap : Nat)
    (h2 : 2 ≤ seq.length) (batch : List (List Int)) (origIdx lenIdx lens : List Nat)
    (hok : pad_and_sort seq cap = Except.ok (batch, origIdx, lenIdx, lens)) :
    lens.Pairwise (fun a b => b ≤ a) ∧
    lens.Perm ((truncSeqs seq cap).map List.length) ∧
    (cap = 0 → lens.Perm (seq.map List.length)) := by
  rw [pad_and_sort_general seq cap h2] at hok
  simp only [Except.ok.injEq, Prod.mk.injEq] at hok
  obtain ⟨hb, ho, hp, hl⟩ := hok
  subst hl
  refine ⟨sortedLengths_pairwise _, sortedLengths_perm _, ?_⟩
  intro hcap
  subst hcap
  have h0 : truncSeqs seq 0 = seq := by unfold truncSeqs; simp
  have h := sortedLengths_perm ((truncSeqs seq 0).map List.length)
  rwa [h0] at h ⊢

/-- Witness for the amended claim C5 at `[[1,2],[5,6,7]]` with no cap. -/
theorem claim5_witness :
    ([3, 2] : List Nat).Pairwise (fun a b => b ≤ a) ∧
    ([3, 2] : List Nat).Perm ((truncSeqs [[1, 2], [5, 6, 7]] 0).map List.length) ∧
    (0 = 0 → ([3, 2] : List Nat).Perm
      (([[1, 2], [5, 6, 7]] : List (List Int)).map List.length)) :=
  claim5_lengths_sorted_perm [[1, 2], [5, 6, 7]] 0 (by decide)
    [[5, 6, 7], [1, 2, 0]] [1, 0] [1, 0] [3, 2] (by decide)

/-- Claim C7 counterexample: on zero samples the reference fails inside the
stacking step of the padder with a generic error; no `EmptyBatchError` exists in
the code, so the error raised is not it. -/
theorem claim7_counterexample :
    collate_batch [] 0 0 = Except.error CollateError.padSequenceEmpty ∧
    CollateError.padSequenceEmpty ≠ CollateError.emptyBatchError := by
  constructor
  · decide
  · decide

/-- Claim C7 (amended): batch construction on zero samples fails
synchronously, because the stacking step of the padder errors on the empty list, for
every cap configuration, rather than silently returning a degenerate
batch; the error is a generic one, not the `EmptyBatchError` of the spec. -/
theorem claim7_empty_batch_fails (qcap ccap : Nat) :
    collate_batch [] qcap ccap = Except.error CollateError.padSequenceEmpty := by
  have hps : pad_and_sort [] qcap = Except.error CollateError.padSequenceEmpty := by
    unfold pad_and_sort
    rw [if_neg (by simp)]
    simp only [truncSeqs_nil]
    rfl
  simp only [collate_batch, List.map_nil, batchMaxWordLen, hps, exceptOkBind,
    exceptErrorBind]

/-- Claim C8: the mask builder returns a same-shape array that is 1 exactly
where the input differs from the pad sentinel 0 and 0 where it equals it. -/
theorem claim8_mask_sequence (x : List (List Int)) :
    (mask_sequence x 0).length = x.length ∧
    (∀ i, ((mask_sequence x 0).getD i []).length = (x.getD i []).length) ∧
    (∀ i j, ((mask_sequence x 0).getD i []).getD j 0
        = if (x.getD i []).getD j 0 = 0 then 0 else 1) := by
  have hlen : (mask_sequence x 0).length = x.length := by
    unfold mask_sequence
    rw [List.length_map]
  refine ⟨hlen, ?_, ?_⟩
  · intro i
    by_cases hi : i < x.length
    · unfold mask_sequence
      rw [getD_map_of_lt _ _ _ [] i hi]
      simp
    · have h1 : (mask_sequence x 0).getD i [] = [] :=
        List.getD_eq_default _ _ (by omega)
      have h2 : x.getD i [] = [] := List.getD_eq_default _ _ (by omega)
      rw [h1, h2]
  · intro i j
    by_cases hi : i < x.length
    · unfold mask_sequence
      rw [getD_map_of_lt _ _ _ [] i hi]
      by_cases hj : j < (x.getD i []).length
      · rw [getD_map_of_lt _ _ _ 0 j hj]
      · have h1 : ((x.getD i []).map (fun v => if v = 0 then (0 : Int) else 1)).getD j 0
            = 0 := List.getD_eq_default _ _ (by rw [List.length_map]; omega)
        have h2 : (x.getD i []).getD j 0 = 0 := List.getD_eq_default _ _ (by omega)
        rw [h1, h2]
        simp
    · have h1 : (mask_sequence x 0).getD i [] = [] :=
        List.getD_eq_default _ _ (by omega)
      have h2 : x.getD i [] = [] := List.getD_eq_default _ _ (by omega)
      rw [h1, h2]
      simp

theorem truncSeqs_getD (l : List (List Int)) (cap i : Nat) (hi : i < l.length) :
    (truncSeqs l cap).getD i []
      = if cap > 0 then (l.getD i []).take cap else l.getD i [] := by
  unfold truncSeqs
  by_cases h : cap > 0
  · rw [if_pos h, if_pos h, getD_map_of_lt _ _ _ [] i hi]
  · rw [if_neg h, if_neg h]

theorem map_map_length_eq (samples : List EncodedSample)
    (f g : EncodedSample → List Int)
    (h : ∀ s ∈ samples, (f s).length = (g s).length) :
    (samples.map f).map List.length = (samples.map g).map List.length := by
  rw [List.map_map, List.map_map]
  exact List.map_congr_left (fun s hs => h s hs)

theorem truncSeqs_map_length_eq {l1 l2 : List (List Int)} (cap : Nat)
    (hlen : l1.map List.length = l2.map List.length) :
    (truncSeqs l1 cap).map List.length = (truncSeqs l2 cap).map List.length := by
  unfold truncSeqs
  by_cases h : cap > 0
  · rw [if_pos h, if_pos h]
    have hgen : ∀ l : List (List Int),
        (l.map (List.take cap)).map List.length
          = (l.map List.length).map (fun n => min cap n) := by
      intro l
      rw [List.map_map, List.map_map]
      apply List.map_congr_left
      intro a _
      simp [List.length_take]
    rw [hgen l1, hgen l2, hlen]
  · rw [if_neg h, if_neg h, hlen]

theorem originalOrderPadded_getD (l : List (List Int)) (cap i : Nat)
    (hi : i < l.length) :
    (originalOrderPadded l cap).getD i []
      = padTo (((truncSeqs l cap).map List.length).foldl Nat.max 0)
          ((truncSeqs l cap).getD i []) := by
  unfold originalOrderPadded
  exact getD_map_of_lt _ _ _ [] i (by rw [truncSeqs_length]; exact hi)

theorem originalOrderPadded_row_length (l : List (List Int)) (cap i : Nat)
    (hi : i < l.length) :
    ((originalOrderPadded l cap).getD i []).length
      = ((truncSeqs l cap).map List.length).foldl Nat.max 0 := by
  rw [originalOrderPadded_getD l cap i hi]
  apply padTo_length_of_le
  rw [length_getD_eq]
  apply foldl_max_le_of_mem
  rw [List.getD_eq_getElem _ _ (by rw [List.length_map, truncSeqs_length]; exact hi)]
  exact List.getElem_mem _

/-- Re-indexing any N-row array first with the context permutation and then
with its inverse recovers the array: the shared core of re-expansion. -/
theorem reexpand_with_perm (rows : List (List Int)) (l : List (List Int)) (cap : Nat)
    (hrows : rows.length = l.length) :
    tensorIndex
      (tensorIndex rows (argsortDesc ((truncSeqs l cap).map List.length)))
      (argsortAsc (argsortDesc ((truncSeqs l cap).map List.length))) = rows := by
  obtain ⟨hpperm, hqperm, hright, hleft⟩ := pad_and_sort_perm_facts l cap
  have hplen : (argsortDesc ((truncSeqs l cap).map List.length)).length = l.length :=
    hpperm.length_eq.trans (List.length_range _)
  have hqlen : (argsortAsc (argsortDesc ((truncSeqs l cap).map List.length))).length
      = l.length := hqperm.length_eq.trans (List.length_range _)
  apply tensorIndex_inv_cancel
  · rw [hplen, hrows]
  · rw [hqlen, hrows]
  · intro j hj
    rw [hrows] at hj
    have hmem : (argsortAsc (argsortDesc ((truncSeqs l cap).map List.length))).getD j 0
        ∈ argsortAsc (argsortDesc ((truncSeqs l cap).map List.length)) := by
      rw [List.getD_eq_getElem _ _ (by omega)]
      exact List.getElem_mem _
    have h := argsortBy_mem hmem
    rw [hplen] at h
    rw [hrows]
    exact h
  · intro j hj
    rw [hrows] at hj
    exact hright j hj

theorem tensorIndex_single (x : List Int) : tensorIndex [x] [0] = [x] := by
  simp [tensorIndex]

/-- Closed form of `collate_batch` on a single-sample batch: every field
passes through the `pad_and_sort` fast path. -/
theorem collate_batch_fields_single (s : EncodedSample) (qcap ccap mq mc : Nat)
    (hmq : batchMaxWordLen [s.question_chars] = Except.ok mq)
    (hmc : batchMaxWordLen [s.context_chars] = Except.ok mc) :
    collate_batch [s] qcap ccap = Except.ok
      { question_ids := [s.question_id]
        question_words := { data := [s.question_words], device := 0 }
        question_chars :=
          { data := buildCharGrid [s.question_chars] qcap s.question_words.length mq
            device := 0 }
        question_lens := { data := [s.question_words.length], device := 0 }
        question_len_idxs := { data := [0], device := 0 }
        question_orig_idxs := { data := [0], device := 0 }
        question_mask := { data := mask_sequence [s.question_words] 0, device := 0 }
        context_words := { data := [s.context_words], device := 0 }
        context_chars :=
          { data := buildCharGrid [s.context_chars] ccap s.context_words.length mc
            device := 0 }
        context_lens := { data := [s.context_words.length], device := 0 }
        context_len_idxs := { data := [0], device := 0 }
        context_orig_idxs := { data := [0], device := 0 }
        context_mask := { data := mask_sequence [s.context_words] 0, device := 0 }
        answer_span_starts := { data := [s.span_starts], device := 0 }
        answer_span_ends := { data := [s.span_ends], device := 0 } } := by
  have h := collate_batch_eq [s] qcap ccap mq mc
    [s.question_words] [0] [0] [s.question_words.length]
    [s.context_words] [0] [0] [s.context_words.length]
    [s.span_starts] [0] [0] [s.span_starts.length]
    [s.span_ends] [0] [0] [s.span_ends.length]
    hmq hmc
    (pad_and_sort_single s.question_words qcap)
    (pad_and_sort_single s.context_words ccap)
    (pad_and_sort_single s.span_starts ccap)
    (pad_and_sort_single s.span_ends ccap)
  rw [h]
  simp [tensorIndex_single]

/-- Closed forms of the `QABatch` fields the claims examine, for a batch of
at least two samples (the general `pad_and_sort` path everywhere): word
tensors re-expand to the original-order dense arrays, char grids are
`buildCharGrid` at the resolved dimensions of the batch, the leading sorted
length bounds every post-truncation length, and the span tensors are the
span batches (sorted by their own argsort) re-indexed with the context
inverse permutation. -/
theorem collate_batch_fields_general (samples : List EncodedSample)
    (qcap ccap mq mc : Nat) (h2 : 2 ≤ samples.length) (b : QABatch)
    (hmq : batchMaxWordLen (samples.map (fun s => s.question_chars)) = Except.ok mq)
    (hmc : batchMaxWordLen (samples.map (fun s => s.context_chars)) = Except.ok mc)
    (hok : collate_batch samples qcap ccap = Except.ok b) :
    b.context_words.data
      = originalOrderPadded (samples.map (fun s => s.context_words)) ccap ∧
    b.question_chars.data
      = buildCharGrid (samples.map (fun s => s.question_chars)) qcap
          (b.question_lens.data.getD 0 0) mq ∧
    b.context_chars.data
      = buildCharGrid (samples.map (fun s => s.context_chars)) ccap
          (b.context_lens.data.getD 0 0) mc ∧
    (∀ x ∈ (truncSeqs (samples.map (fun s => s.question_words)) qcap).map List.length,
      x ≤ b.question_lens.data.getD 0 0) ∧
    (∀ x ∈ (truncSeqs (samples.map (fun s => s.context_words)) ccap).map List.length,
      x ≤ b.context_lens.data.getD 0 0) ∧
    b.answer_span_starts.data
      = tensorIndex
          (tensorIndex
            (originalOrderPadded (samples.map (fun s => s.span_starts)) ccap)
            (argsortDesc
              ((truncSeqs (samples.map (fun s => s.span_starts)) ccap).map List.length)))
          (argsortAsc
            (argsortDesc
              ((truncSeqs (samples.map (fun s => s.context_words)) ccap).map List.length))) ∧
    b.answer_span_ends.data
      = tensorIndex
          (tensorIndex
            (originalOrderPadded (samples.map (fun s => s.span_ends)) ccap)
            (argsortDesc
              ((truncSeqs (samples.map (fun s => s.span_ends)) ccap).map List.length)))
          (argsortAsc
            (argsortDesc
              ((truncSeqs (samples.map (fun s => s.context_words)) ccap).map List.length))) := by
  have hq := pad_and_sort_general (samples.map (fun s => s.question_words)) qcap
    (by rw [List.length_map]; exact h2)
  have hc := pad_and_sort_general (samples.map (fun s => s.context_words)) ccap
    (by rw [List.length_map]; exact h2)
  have hss := pad_and_sort_general (samples.map (fun s => s.span_starts)) ccap
    (by rw [List.length_map]; exact h2)
  have hse := pad_and_sort_general (samples.map (fun s => s.span_ends)) ccap
    (by rw [List.length_map]; exact h2)
  have hcb := collate_batch_eq samples qcap ccap mq mc
    _ _ _ _ _ _ _ _ _ _ _ _ _ _ _ _ hmq hmc hq hc hss hse
  rw [hcb] at hok
  obtain rfl := Except.ok.inj hok
  refine ⟨?_, rfl, rfl, ?_, ?_, rfl, rfl⟩
  · exact reexpand_with_perm _ _ ccap (originalOrderPadded_length _ _)
  · intro x hx
    exact head_ge_of_mem_of_sorted (sortedLengths_pairwise _)
      ((sortedLengths_perm _).symm.subset hx)
  · intro x hx
    exact head_ge_of_mem_of_sorted (sortedLengths_pairwise _)
      ((sortedLengths_perm _).symm.subset hx)

/-- Claim C10: when the span vectors of every sample have the same length as its
context word sequence, the assembled span tensors have exactly the 2-D
shape of the assembled context word tensor, for any caps. -/
theorem claim10_span_shapes (samples : List EncodedSample) (qcap ccap : Nat)
    (hne : samples ≠ [])
    (hqc : ∀ s ∈ samples, s.question_chars ≠ [])
    (hcc : ∀ s ∈ samples, s.context_chars ≠ [])
    (halign : ∀ s ∈ samples, s.span_starts.length = s.context_words.length ∧
        s.span_ends.length = s.context_words.length)
    (b : QABatch) (hok : collate_batch samples qcap ccap = Except.ok b) :
    b.answer_span_starts.data.length = b.context_words.data.length ∧
    b.answer_span_ends.data.length = b.context_words.data.length ∧
    (∀ i, (b.answer_span_starts.data.getD i []).length
        = (b.context_words.data.getD i []).length ∧
      (b.answer_span_ends.data.getD i []).length
        = (b.context_words.data.getD i []).length) := by
  obtain ⟨mq, hmq, -, -⟩ :=
    batchMaxWordLen_ok (samples.map (fun s => s.question_chars))
      (by intro c hc; obtain ⟨s, hs, rfl⟩ := List.mem_map.mp hc; exact hqc s hs)
  obtain ⟨mc, hmc, -, -⟩ :=
    batchMaxWordLen_ok (samples.map (fun s => s.context_chars))
      (by intro c hc; obtain ⟨s, hs, rfl⟩ := List.mem_map.mp hc; exact hcc s hs)
  match samples, hne, hqc, hcc, halign, hmq, hmc, hok with
  | [s0], _, hqc, hcc, halign, hmq, hmc, hok =>
    rw [collate_batch_fields_single s0 qcap ccap mq mc hmq hmc] at hok
    obtain rfl := Except.ok.inj hok
    obtain ⟨ha1, ha2⟩ := halign s0 (List.mem_cons_self s0 [])
    refine ⟨rfl, rfl, ?_⟩
    intro i
    match i with
    | 0 => exact ⟨ha1, ha2⟩
    | Nat.succ n =>
      constructor <;>
        rw [List.getD_eq_default _ _ (by simp), List.getD_eq_default _ _ (by simp)]
  | s0 :: s1 :: rest, _, hqc, hcc, halign, hmq, hmc, hok =>
    obtain ⟨hcw, -, -, -, -, hssf, hsef⟩ :=
      collate_batch_fields_general (s0 :: s1 :: rest) qcap ccap mq mc
        (by simp) b hmq hmc hok
    have hlss : (truncSeqs ((s0 :: s1 :: rest).map (fun s => s.span_starts)) ccap).map
          List.length
        = (truncSeqs ((s0 :: s1 :: rest).map (fun s => s.context_words)) ccap).map
          List.length :=
      truncSeqs_map_length_eq ccap
        (map_map_length_eq _ _ _ (fun s hs => (halign s hs).1))
    have hlse : (truncSeqs ((s0 :: s1 :: rest).map (fun s => s.span_ends)) ccap).map
          List.length
        = (truncSeqs ((s0 :: s1 :: rest).map (fun s => s.context_words)) ccap).map
          List.length :=
      truncSeqs_map_length_eq ccap
        (map_map_length_eq _ _ _ (fun s hs => (halign s hs).2))
    rw [hlss] at hssf
    rw [hlse] at hsef
    have hsslen : (originalOrderPadded ((s0 :: s1 :: rest).map (fun s => s.span_starts))
        ccap).length = ((s0 :: s1 :: rest).map (fun s => s.context_words)).length := by
      rw [originalOrderPadded_length]
      simp
    have hselen : (originalOrderPadded ((s0 :: s1 :: rest).map (fun s => s.span_ends))
        ccap).length = ((s0 :: s1 :: rest).map (fun s => s.context_words)).length := by
      rw [originalOrderPadded_length]
      simp
    rw [reexpand_with_perm _ _ ccap hsslen] at hssf
    rw [reexpand_with_perm _ _ ccap hselen] at hsef
    rw [hssf, hsef, hcw]
    have hN : ((s0 :: s1 :: rest).map (fun s => s.context_words)).length
        = rest.length + 2 := by simp
    refine ⟨?_, ?_, ?_⟩
    · rw [originalOrderPadded_length, originalOrderPadded_length]
      simp
    · rw [originalOrderPadded_length, originalOrderPadded_length]
      simp
    · intro i
      by_cases hi : i < rest.length + 2
      · constructor
        · rw [originalOrderPadded_row_length _ _ _ (by simp; omega),
            originalOrderPadded_row_length _ _ _ (by simp; omega), hlss]
        · rw [originalOrderPadded_row_length _ _ _ (by simp; omega),
            originalOrderPadded_row_length _ _ _ (by simp; omega), hlse]
      · constructor <;>
          rw [List.getD_eq_default _ _
                (by rw [originalOrderPadded_length]; simp; omega),
              List.getD_eq_default _ _
                (by rw [originalOrderPadded_length]; simp; omega)]

theorem origPadded_row_entry (l : List (List Int)) (cap i k : Nat) (hi : i < l.length) :
    ((originalOrderPadded l cap).getD i []).getD k 0
      = (if cap > 0 then (l.getD i []).take cap else l.getD i []).getD k 0 := by
  rw [originalOrderPadded_getD l cap i hi, padTo_getD, truncSeqs_getD l cap i hi]

theorem origPadded_row_mem (l : List (List Int)) (cap i : Nat) (hi : i < l.length)
    {x : Int} (hx : x ∈ (originalOrderPadded l cap).getD i []) :
    x ∈ l.getD i [] ∨ x = 0 := by
  rw [originalOrderPadded_getD l cap i hi] at hx
  rcases mem_padTo hx with h | h
  · rw [truncSeqs_getD l cap i hi] at h
    by_cases hc : cap > 0
    · rw [if_pos hc] at h
      exact Or.inl (List.take_subset _ _ h)
    · rw [if_neg hc] at h
      exact Or.inl h
  · exact Or.inr h

/-- The two facts claim C2 asserts of one span row against the indicator
vector of its sample: a 1 below the cap survives at the same position, and an
all-zero vector gives an all-zero row. -/
theorem span_row_facts (l : List (List Int)) (samples : List EncodedSample)
    (f : EncodedSample → List Int) (cap i : Nat) (hi : i < samples.length)
    (hl : l = samples.map f) :
    (∀ k, (cap = 0 ∨ k < cap) → (f (samples.getD i default)).getD k 0 = 1 →
      ((originalOrderPadded l cap).getD i []).getD k 0 = 1) ∧
    ((∀ x ∈ f (samples.getD i default), x = 0) →
      ∀ x ∈ (originalOrderPadded l cap).getD i [], x = 0) := by
  subst hl
  have hil : i < (samples.map f).length := by rwa [List.length_map]
  have hrow : (samples.map f).getD i [] = f (samples.getD i default) :=
    getD_map_of_lt f samples [] default i hi
  constructor
  · intro k hk h1
    rw [origPadded_row_entry _ cap i k hil, hrow]
    by_cases hc : cap > 0
    · rw [if_pos hc, take_getD, if_pos (by omega)]
      exact h1
    · rw [if_neg hc]
      exact h1
  · intro hz x hx
    rcases origPadded_row_mem _ cap i hil hx with h | h
    · rw [hrow] at h
      exact hz x h
    · exact h

/-- Claim C2: in every assembled batch whose samples have context-aligned
span vectors, an indicator 1 at position k (below the context cap) appears
at position k of the row of that sample in the assembled span tensor — never
shifted by sorting — and an all-zero indicator vector yields an all-zero
row. -/
theorem claim2_span_indicator_alignment (samples : List EncodedSample) (qcap ccap : Nat)
    (hne : samples ≠ [])
    (hqc : ∀ s ∈ samples, s.question_chars ≠ [])
    (hcc : ∀ s ∈ samples, s.context_chars ≠ [])
    (halign : ∀ s ∈ samples, s.span_starts.length = s.context_words.length ∧
        s.span_ends.length = s.context_words.length)
    (b : QABatch) (hok : collate_batch samples qcap ccap = Except.ok b)
    (i : Nat) (hi : i < samples.length) :
    (∀ k, (ccap = 0 ∨ k < ccap) →
      ((samples.getD i default).span_starts.getD k 0 = 1 →
        (b.answer_span_starts.data.getD i []).getD k 0 = 1) ∧
      ((samples.getD i default).span_ends.getD k 0 = 1 →
        (b.answer_span_ends.data.getD i []).getD k 0 = 1)) ∧
    ((∀ x ∈ (samples.getD i default).span_starts, x = 0) →
      ∀ x ∈ b.answer_span_starts.data.getD i [], x = 0) ∧
    ((∀ x ∈ (samples.getD i default).span_ends, x = 0) →
      ∀ x ∈ b.answer_span_ends.data.getD i [], x = 0) := by
  obtain ⟨mq, hmq, -, -⟩ :=
    batchMaxWordLen_ok (samples.map (fun s => s.question_chars))
      (by intro c hc; obtain ⟨s, hs, rfl⟩ := List.mem_map.mp hc; exact hqc s hs)
  obtain ⟨mc, hmc, -, -⟩ :=
    batchMaxWordLen_ok (samples.map (fun s => s.context_chars))
      (by intro c hc; obtain ⟨s, hs, rfl⟩ := List.mem_map.mp hc; exact hcc s hs)
  match samples, hne, halign, hmq, hmc, hok, hi with
  | [s0], _, halign, hmq, hmc, hok, hi =>
    rw [collate_batch_fields_single s0 qcap ccap mq mc hmq hmc] at hok
    obtain rfl := Except.ok.inj hok
    have hi0 : i = 0 := by
      simp only [List.length_cons, List.length_nil] at hi
      omega
    subst hi0
    refine ⟨fun k _ => ⟨fun h1 => h1, fun h1 => h1⟩, fun hz x hx => hz x hx,
      fun hz x hx => hz x hx⟩
  | s0 :: s1 :: rest, _, halign, hmq, hmc, hok, hi =>
    obtain ⟨-, -, -, -, -, hssf, hsef⟩ :=
      collate_batch_fields_general (s0 :: s1 :: rest) qcap ccap mq mc
        (by simp) b hmq hmc hok
    have hlss : (truncSeqs ((s0 :: s1 :: rest).map (fun s => s.span_starts)) ccap).map
          List.length
        = (truncSeqs ((s0 :: s1 :: rest).map (fun s => s.context_words)) ccap).map
          List.length :=
      truncSeqs_map_length_eq ccap
        (map_map_length_eq _ _ _ (fun s hs => (halign s hs).1))
    have hlse : (truncSeqs ((s0 :: s1 :: rest).map (fun s => s.span_ends)) ccap).map
          List.length
        = (truncSeqs ((s0 :: s1 :: rest).map (fun s => s.context_words)) ccap).map
          List.length :=
      truncSeqs_map_length_eq ccap
        (map_map_length_eq _ _ _ (fun s hs => (halign s hs).2))
    rw [hlss] at hssf
    rw [hlse] at hsef
    rw [reexpand_with_perm _ _ ccap
      (by rw [originalOrderPadded_length]; simp)] at hssf
    rw [reexpand_with_perm _ _ ccap
      (by rw [originalOrderPadded_length]; simp)] at hsef
    rw [hssf, hsef]
    obtain ⟨hfs, hzs⟩ :=
      span_row_facts ((s0 :: s1 :: rest).map (fun s => s.span_starts))
        (s0 :: s1 :: rest) (fun s => s.span_starts) ccap i hi rfl
    obtain ⟨hfe, hze⟩ :=
      span_row_facts ((s0 :: s1 :: rest).map (fun s => s.span_ends))
        (s0 :: s1 :: rest) (fun s => s.span_ends) ccap i hi rfl
    exact ⟨fun k hk => ⟨hfs k hk, hfe k hk⟩, hzs, hze⟩

/-- Witness for claim C2 on a two-sample batch whose contexts arrive in
descending length order, for sample 0. -/
theorem claim2_witness :
    (∀ k, ((0 : Nat) = 0 ∨ k < 0) →
      (([0, 1] : List Int).getD k 0 = 1 →
        (([[0, 1], [1, 0]] : List (List Int)).getD 0 []).getD k 0 = 1) ∧
      (([1, 0] : List Int).getD k 0 = 1 →
        (([[1, 0], [1, 0]] : List (List Int)).getD 0 []).getD k 0 = 1)) ∧
    ((∀ x ∈ ([0, 1] : List Int), x = 0) →
      ∀ x ∈ ([[0, 1], [1, 0]] : List (List Int)).getD 0 [], x = 0) ∧
    ((∀ x ∈ ([1, 0] : List Int), x = 0) →
      ∀ x ∈ ([[1, 0], [1, 0]] : List (List Int)).getD 0 [], x = 0) :=
  claim2_span_indicator_alignment
    [⟨"qa", [1], [[1]], [10, 20], [[7], [8]], [0, 1], [1, 0]⟩,
     ⟨"qb", [2, 3], [[2], [3]], [30], [[9]], [1], [1]⟩] 0 0
    (by decide) (by decide) (by decide) (by decide)
    { question_ids := ["qa", "qb"]
      question_words := { data := [[1, 0], [2, 3]], device := 0 }
      question_chars := { data := [[[1], [0]], [[2], [3]]], device := 0 }
      question_lens := { data := [2, 1], device := 0 }
      question_len_idxs := { data := [1, 0], device := 0 }
      question_orig_idxs := { data := [1, 0], device := 0 }
      question_mask := { data := [[1, 0], [1, 1]], device := 0 }
      context_words := { data := [[10, 20], [30, 0]], device := 0 }
      context_chars := { data := [[[7], [8]], [[9], [0]]], device := 0 }
      context_lens := { data := [2, 1], device := 0 }
      context_len_idxs := { data := [0, 1], device := 0 }
      context_orig_idxs := { data := [0, 1], device := 0 }
      context_mask := { data := [[1, 1], [1, 0]], device := 0 }
      answer_span_starts := { data := [[0, 1], [1, 0]], device := 0 }
      answer_span_ends := { data := [[1, 0], [1, 0]], device := 0 } }
    (by decide) 0 (by decide)

/-- Witness for claim C10 on a single-sample batch. -/
theorem claim10_witness :
    ([[1]] : List (List Int)).length = ([[5]] : List (List Int)).length ∧
    ([[1]] : List (List Int)).length = ([[5]] : List (List Int)).length ∧
    (∀ i, (([[1]] : List (List Int)).getD i []).length
        = (([[5]] : List (List Int)).getD i []).length ∧
      (([[1]] : List (List Int)).getD i []).length
        = (([[5]] : List (List Int)).getD i []).length) :=
  claim10_span_shapes [⟨"q", [1], [[1]], [5], [[2]], [1], [1]⟩] 0 0
    (by decide) (by decide) (by decide) (by decide)
    { question_ids := ["q"]
      question_words := { data := [[1]], device := 0 }
      question_chars := { data := [[[1]]], device := 0 }
      question_lens := { data := [1], device := 0 }
      question_len_idxs := { data := [0], device := 0 }
      question_orig_idxs := { data := [0], device := 0 }
      question_mask := { data := [[1]], device := 0 }
      context_words := { data := [[5]], device := 0 }
      context_chars := { data := [[[2]]], device := 0 }
      context_lens := { data := [1], device := 0 }
      context_len_idxs := { data := [0], device := 0 }
      context_orig_idxs := { data := [0], device := 0 }
      context_mask := { data := [[1]], device := 0 }
      answer_span_starts := { data := [[1]], device := 0 }
      answer_span_ends := { data := [[1]], device := 0 } }
    (by decide)

/-- Claim C9: the bulk device transfer leaves the question-identifier list
untouched, and the length query returns the sample count (the length of the
question-identifier list) both after and before a transfer. -/
theorem claim9_to_preserves_ids (b : QABatch) (device : Nat) :
    (b.to device).question_ids = b.question_ids ∧
    (b.to device).size = b.question_ids.length ∧
    b.size = b.question_ids.length :=
  ⟨rfl, rfl, rfl⟩

theorem charGridRow_getD (cap maxLen m : Nat) (chars : List (List Int)) (w : Nat)
    (hw : w < maxLen) :
    (charGridRow cap maxLen m chars).getD w []
      = if (cap = 0 ∨ w < cap) ∧ w < chars.length then
          sliceAssign (List.replicate m 0) (chars.getD w [])
        else List.replicate m 0 := by
  unfold charGridRow
  rw [getD_map_of_lt _ _ _ 0 w (by rw [List.length_range]; exact hw),
    getD_range _ _ hw]

theorem sliceAssign_replicate (m : Nat) (word : List Int) :
    sliceAssign (List.replicate m 0) word
      = word ++ List.replicate (m - word.length) 0 := by
  unfold sliceAssign
  rw [List.drop_replicate]

/-- Lemma: `buildCharGrid` satisfies the grid contract whenever the char dimension
bounds (and is attained by) the word lengths of the batch and every written word
slot fits inside the word dimension of the grid. -/
theorem buildCharGrid_matches (charsList : List (List (List Int))) (cap maxLen m : Nat)
    (hbound : ∀ c ∈ charsList, ∀ w ∈ c, w.length ≤ m)
    (hattain : ∃ c ∈ charsList, ∃ w ∈ c, w.length = m)
    (hwlt : ∀ i, i < charsList.length → ∀ w, w < (charsList.getD i []).length →
      (cap = 0 ∨ w < cap) → w < maxLen) :
    charGridMatches charsList cap maxLen m (buildCharGrid charsList cap maxLen m) := by
  refine ⟨by simp [buildCharGrid], hbound, hattain, ?_⟩
  intro i hi
  have hrow : (buildCharGrid charsList cap maxLen m).getD i []
      = charGridRow cap maxLen m (charsList.getD i []) := by
    unfold buildCharGrid
    exact getD_map_of_lt _ _ _ [] i hi
  have hchars_mem : charsList.getD i [] ∈ charsList := by
    rw [List.getD_eq_getElem _ _ hi]
    exact List.getElem_mem _
  refine ⟨?_, ?_, ?_, ?_⟩
  · rw [hrow]
    unfold charGridRow
    simp
  · intro w hw
    rw [hrow, charGridRow_getD _ _ _ _ _ hw]
    by_cases hcond : (cap = 0 ∨ w < cap) ∧ w < (charsList.getD i []).length
    · rw [if_pos hcond, sliceAssign_replicate]
      have hwm : ((charsList.getD i []).getD w []).length ≤ m := by
        apply hbound _ hchars_mem
        rw [List.getD_eq_getElem _ _ hcond.2]
        exact List.getElem_mem _
      rw [List.length_append, List.length_replicate]
      omega
    · rw [if_neg hcond, List.length_replicate]
  · intro w hwc hcap
    have hw : w < maxLen := hwlt i hi w hwc hcap
    rw [hrow, charGridRow_getD _ _ _ _ _ hw, if_pos ⟨hcap, hwc⟩, sliceAssign_replicate]
    constructor
    · exact List.take_left _ _
    · intro j hj
      rw [List.getD_append_right _ _ _ _ hj]
      exact replicate_getD_zero _ _
  · intro w hw hncond
    rw [hrow, charGridRow_getD _ _ _ _ _ hw, if_neg hncond]

/-- For a word-aligned field, every word index the grid loop writes lies
below the resolved max word count of that field. -/
theorem collate_word_slot_lt (samples : List EncodedSample) (cap : Nat)
    (fw : EncodedSample → List Int) (fc : EncodedSample → List (List Int))
    (halign : ∀ s ∈ samples, (fc s).length = (fw s).length)
    (lens0 : Nat)
    (hbnd : ∀ x ∈ (truncSeqs (samples.map fw) cap).map List.length, x ≤ lens0) :
    ∀ i, i < (samples.map fc).length →
      ∀ w, w < ((samples.map fc).getD i []).length → (cap = 0 ∨ w < cap) →
        w < lens0 := by
  intro i hi w hwc hcap
  rw [List.length_map] at hi
  have hsmem : samples.getD i default ∈ samples := by
    rw [List.getD_eq_getElem _ _ hi]
    exact List.getElem_mem _
  have hchars : (samples.map fc).getD i [] = fc (samples.getD i default) :=
    getD_map_of_lt fc samples [] default i hi
  rw [hchars] at hwc
  have hlen := halign _ hsmem
  have hxi_mem : ((truncSeqs (samples.map fw) cap).map List.length).getD i 0
      ∈ (truncSeqs (samples.map fw) cap).map List.length := by
    rw [List.getD_eq_getElem _ _
      (by rw [List.length_map, truncSeqs_length, List.length_map]; exact hi)]
    exact List.getElem_mem _
  have hxi_le := hbnd _ hxi_mem
  have hxi_eq : ((truncSeqs (samples.map fw) cap).map List.length).getD i 0
      = ((truncSeqs (samples.map fw) cap).getD i []).length :=
    (length_getD_eq _ _).symm
  have htr : (truncSeqs (samples.map fw) cap).getD i []
      = if cap > 0 then ((samples.map fw).getD i []).take cap
        else (samples.map fw).getD i [] :=
    truncSeqs_getD _ cap i (by rw [List.length_map]; exact hi)
  have hww : (samples.map fw).getD i [] = fw (samples.getD i default) :=
    getD_map_of_lt fw samples [] default i hi
  by_cases hc : cap > 0
  · rw [if_pos hc, hww] at htr
    have heq : ((truncSeqs (samples.map fw) cap).getD i []).length
        = min cap (fw (samples.getD i default)).length := by
      rw [htr, List.length_take]
    have hwcap : w < cap := by
      rcases hcap with h0 | h1
      · omega
      · exact h1
    have hwlt2 : w < min cap (fw (samples.getD i default)).length :=
      Nat.lt_min.mpr ⟨hwcap, by omega⟩
    omega
  · rw [if_neg hc, hww] at htr
    have heq : ((truncSeqs (samples.map fw) cap).getD i []).length
        = (fw (samples.getD i default)).length := by rw [htr]
    omega

/-- Claim C6: in every assembled batch with word-aligned char lists, each
character grid of each field has shape (N, resolved max word count, longest word
of the whole batch pre-cap), written cells carry the char ids of their word
followed by zeros, and all other cells are zero. -/
theorem claim6_char_grids (samples : List EncodedSample) (qcap ccap : Nat)
    (hne : samples ≠ [])
    (hqc : ∀ s ∈ samples, s.question_chars ≠ [])
    (hcc : ∀ s ∈ samples, s.context_chars ≠ [])
    (halignq : ∀ s ∈ samples, s.question_chars.length = s.question_words.length)
    (halignc : ∀ s ∈ samples, s.context_chars.length = s.context_words.length)
    (b : QABatch) (hok : collate_batch samples qcap ccap = Except.ok b) :
    ∃ mq mc,
      charGridMatches (samples.map (fun s => s.question_chars)) qcap
        (b.question_lens.data.getD 0 0) mq b.question_chars.data ∧
      charGridMatches (samples.map (fun s => s.context_chars)) ccap
        (b.context_lens.data.getD 0 0) mc b.context_chars.data := by
  obtain ⟨mq, hmq, hqbound, hqattain⟩ :=
    batchMaxWordLen_ok (samples.map (fun s => s.question_chars))
      (by intro c hc; obtain ⟨s, hs, rfl⟩ := List.mem_map.mp hc; exact hqc s hs)
  obtain ⟨mc, hmc, hcbound, hcattain⟩ :=
    batchMaxWordLen_ok (samples.map (fun s => s.context_chars))
      (by intro c hc; obtain ⟨s, hs, rfl⟩ := List.mem_map.mp hc; exact hcc s hs)
  have hqattain2 := hqattain (by intro hmap; exact hne (by simpa using hmap))
  have hcattain2 := hcattain (by intro hmap; exact hne (by simpa using hmap))
  refine ⟨mq, mc, ?_⟩
  match samples, hne, halignq, halignc, hqbound, hcbound, hqattain2, hcattain2,
      hmq, hmc, hok with
  | [s0], _, halignq, halignc, hqbound, hcbound, hqattain2, hcattain2, hmq, hmc, hok =>
    rw [collate_batch_fields_single s0 qcap ccap mq mc hmq hmc] at hok
    obtain rfl := Except.ok.inj hok
    constructor
    · apply buildCharGrid_matches _ _ _ _ hqbound hqattain2
      intro i hi w hwc hcap
      have hi0 : i = 0 := by
        simp only [List.length_map, List.length_cons, List.length_nil] at hi
        omega
      subst hi0
      simp only [List.map_cons, List.map_nil, List.getD_cons_zero] at hwc
      have := halignq s0 (List.mem_cons_self s0 [])
      show w < s0.question_words.length
      omega
    · apply buildCharGrid_matches _ _ _ _ hcbound hcattain2
      intro i hi w hwc hcap
      have hi0 : i = 0 := by
        simp only [List.length_map, List.length_cons, List.length_nil] at hi
        omega
      subst hi0
      simp only [List.map_cons, List.map_nil, List.getD_cons_zero] at hwc
      have := halignc s0 (List.mem_cons_self s0 [])
      show w < s0.context_words.length
      omega
  | s0 :: s1 :: rest, _, halignq, halignc, hqbound, hcbound, hqattain2, hcattain2,
      hmq, hmc, hok =>
    obtain ⟨-, hqgrid, hcgrid, hqbnd, hcbnd, -, -⟩ :=
      collate_batch_fields_general (s0 :: s1 :: rest) qcap ccap mq mc
        (by simp) b hmq hmc hok
    constructor
    · rw [hqgrid]
      exact buildCharGrid_matches _ _ _ _ hqbound hqattain2
        (collate_word_slot_lt (s0 :: s1 :: rest) qcap
          (fun s => s.question_words) (fun s => s.question_chars) halignq _ hqbnd)
    · rw [hcgrid]
      exact buildCharGrid_matches _ _ _ _ hcbound hcattain2
        (collate_word_slot_lt (s0 :: s1 :: rest) ccap
          (fun s => s.context_words) (fun s => s.context_chars) halignc _ hcbnd)

/-- Witness for claim C6 on a single-sample batch. -/
theorem claim6_witness :
    ∃ mq mc,
      charGridMatches [[[1]]] 0 1 mq ([[[1]]] : List (List (List Int))) ∧
      charGridMatches [[[2]]] 0 1 mc ([[[2]]] : List (List (List Int))) :=
  claim6_char_grids [⟨"q", [1], [[1]], [5], [[2]], [1], [1]⟩] 0 0
    (by decide) (by decide) (by decide) (by decide) (by decide)
    { question_ids := ["q"]
      question_words := { data := [[1]], device := 0 }
      question_chars := { data := [[[1]]], device := 0 }
      question_lens := { data := [1], device := 0 }
      question_len_idxs := { data := [0], device := 0 }
      question_orig_idxs := { data := [0], device := 0 }
      question_mask := { data := [[1]], device := 0 }
      context_words := { data := [[5]], device := 0 }
      context_chars := { data := [[[2]]], device := 0 }
      context_lens := { data := [1], device := 0 }
      context_len_idxs := { data := [0], device := 0 }
      context_orig_idxs := { data := [0], device := 0 }
      context_mask := { data := [[1]], device := 0 }
      answer_span_starts := { data := [[1]], device := 0 }
      answer_span_ends := { data := [[1]], device := 0 } }
    (by decide)

end SquadModels
